import Mathlib

/-!
# LegendaryMediaTV CMS — verification of the page-resolution, migration and
rendering pipeline

Shallow embedding of `app.js` of the LMTV-CMS repository.  The document
store (MongoDB) is modelled as an association list of
(collection name, document) pairs; documents carry exactly the fields the
CMS reads or writes.  The Express/HTTP wiring is out of scope; the request
handler's resolution loop, the migration routine and the three-stage
renderer are embedded as pure functions with explicit state passing, and
fallible operations return `Except String`.
-/

namespace LMTVCMS

/-- The fixed template divider literal (`cmsTemplateDivider` in app.js). -/
def cmsTemplateDivider : String :=
  "//////////////////// TEMPLATE DIVIDER ////////////////////\r\n"

/-- A stored document.  Fields mirror the ones the CMS reads/writes on the
schemaless MongoDB documents; absent JS fields are `none` (for `title`,
which the renderer treats as text, absence is modelled as `""`). -/
structure Doc where
  _id : String
  title : String := ""
  /-- a page's reference to its template (a template identifier) -/
  template : Option String := none
  body : Option String := none
  header : Option String := none
  footer : Option String := none
  created : Option Nat := none
  updated : Option Nat := none
deriving Repr, DecidableEq

/-- The document store: a list of (collection name, document) entries. -/
def Store : Type := List (String × Doc)

instance : DecidableEq Store := by
  unfold Store
  infer_instance

/-- MongoDB `findOne(collection, { _id: id })`: first document of the
collection whose `_id` matches. -/
def mongoFindOne (store : Store) (collection id : String) : Option Doc :=
  (List.find? (fun e => e.1 = collection && e.2._id = id) store).map (fun e => e.2)

/-- `CMS.findOne` (app.js): rejects when the collection name is falsy
(empty string), otherwise queries the store.  The filter/options argument
checks are modelled at the call sites that can violate them. -/
def findOne (store : Store) (collection id : String) : Except String (Option Doc) :=
  if collection = "" then .error "MongoDB collection is required"
  else .ok (mongoFindOne store collection id)

/-- MongoDB `replaceOne(collection, { _id: id }, doc, { upsert: true })`:
replace the first matching document, or insert when absent; the `_id` of
the stored document is the filter's `_id`. -/
def replaceOneUpsert (store : Store) (collection id : String) (doc : Doc) : Store :=
  match store with
  | [] => [(collection, { doc with _id := id })]
  | e :: rest =>
    if e.1 = collection ∧ e.2._id = id then (collection, { doc with _id := id }) :: rest
    else e :: replaceOneUpsert rest collection id doc

/-! ## JavaScript string primitives

`String.prototype.split` and `String.prototype.toLowerCase` are embedded as
structurally recursive functions over `List Char`, so concrete runs reduce
inside the kernel. -/

/-- When `sep` is a leading run of `s`, the remainder of `s` after it. -/
def dropStart : List Char → List Char → Option (List Char)
  | [], s => some s
  | _ :: _, [] => none
  | a :: sep, b :: s => if a = b then dropStart sep s else none

/-- Fuelled splitting loop: scan `s` left to right, starting a new part at
every non-overlapping occurrence of `sep`.  The fuel is an upper bound on
the scanned length; callers pass `s.length`, which suffices for the
non-empty separators the CMS splits on. -/
def splitGo (sep : List Char) : Nat → List Char → List (List Char)
  | _, [] => [[]]
  | 0, s => [s]
  | fuel + 1, c :: rest =>
    match dropStart sep (c :: rest) with
    | some remainder => [] :: splitGo sep fuel remainder
    | none =>
      match splitGo sep fuel rest with
      | [] => [[c]]
      | part :: parts => (c :: part) :: parts

/-- JavaScript `s.split(sep)` for a non-empty string separator. -/
def jsSplit (sep s : String) : List String :=
  (splitGo sep.toList s.toList.length s.toList).map List.asString

/-- JavaScript `s.toLowerCase()` (on the ASCII identifiers the CMS uses). -/
def jsToLowerCase (s : String) : String :=
  (s.toList.map Char.toLower).asString

/-! ## Page resolution (`findPage` and the request-handler loop) -/

/-- Result of `findPage`: the page document augmented with the canonical
`url` and with the `template` field replaced by the looked-up template
document (or `none` when absent). -/
structure ResolvedPage where
  page : Doc
  url : String
  template : Option Doc
deriving Repr, DecidableEq

/-- `CMS.findPage` (app.js): look the page up in `cmsPages`; when found,
set `page.url = '/' + (page._id != 'home' ? page._id : '')` and replace
`page.template` by the `cmsTemplates` document of that identifier. -/
def findPage (store : Store) (search : String) : Option ResolvedPage :=
  match mongoFindOne store "cmsPages" search with
  | none => none
  | some page =>
    some { page := page
           url := "/" ++ (if page._id ≠ "home" then page._id else "")
           template := page.template.bind (fun tid => mongoFindOne store "cmsTemplates" tid) }

/-- Token normalization in the handler loop: an empty URL token becomes
the literal identifier `home`; every other token is kept as is. -/
def normalizeToken (t : String) : String :=
  if t = "" then "home" else t

/-- The handler's lookup loop, on the request tokens listed in the order
they are tried (i.e. already reversed): normalize each token, try
`findPage`, and break on the first hit. -/
def resolveLoop (store : Store) : List String → Option ResolvedPage
  | [] => none
  | t :: rest =>
    match findPage store (normalizeToken t) with
    | some page => some page
    | none => resolveLoop store rest

/-- The tokens of a request URL: `req.originalUrl.toLowerCase().split('/')`. -/
def urlTokens (url : String) : List String :=
  jsSplit "/" (jsToLowerCase url)

/-- Page resolution of the request handler (app.js lines 171-188): walk the
lowercased `/`-split tokens from the last to the first, returning the first
page found. -/
def resolvePage (store : Store) (url : String) : Option ResolvedPage :=
  resolveLoop store (urlTokens url).reverse

/-! ## Seed loader / migration (`CMS.migrate`) -/

/-- `entryPath.name.substr(0, entryPath.name.indexOf('-'))` with JavaScript
semantics: when the name has no `-`, `indexOf` is `-1` and `substr(0, -1)`
is the empty string. -/
def seedCollection (name : String) : String :=
  match List.findIdx? (fun c => c = '-') name.toList with
  | some i => ((name.toList).take i).asString
  | none => ""

/-- `entryPath.name.substr(entryPath.name.indexOf('-') + 1)` with JavaScript
semantics: when the name has no `-`, this is `substr(0)`, the whole name. -/
def seedId (name : String) : String :=
  match List.findIdx? (fun c => c = '-') name.toList with
  | some i => ((name.toList).drop (i + 1)).asString
  | none => name

/-- One seed directory entry.  `name` is the file's base name without
extension (`entryPath.name`), `isJson` whether the extension is `.json`,
and `payload` the parsed JSON metadata of a `.json` file (JSON parsing
itself is external; entries model files whose payload parses). -/
structure SeedFile where
  name : String
  isJson : Bool
  payload : Doc
deriving Repr, DecidableEq

/-- A seed directory: its entries in iteration order, plus the contents of
the sibling source files, keyed by base name (`none` models a read failure,
e.g. the `.js` file does not exist). -/
structure SeedDir where
  files : List SeedFile
  source : String → Option String

/-- The source-injection `try`-block of `migrate` (app.js lines 313-328).
A missing/unreadable source file leaves the document as parsed.  For
`cmsPages` the raw source becomes the body.  For a template the source is
split on the divider; when the split does not have exactly three parts the
code throws a descriptive error, but that `throw` sits inside the same
`try { ... } catch (err) { }` that swallows read failures, so the document
is left as parsed and migration continues; with three parts, empty parts
become `null` fields. -/
def applySource (collection : String) (payload : Doc) (source : Option String) : Doc :=
  match source with
  | none => payload
  | some s =>
    if collection = "cmsPages" then { payload with body := some s }
    else
      let parts := jsSplit cmsTemplateDivider s
      if parts.length ≠ 3 then payload
      else
        { payload with
          header := if (parts.getD 0 "").length ≠ 0 then some (parts.getD 0 "") else none
          body := if (parts.getD 1 "").length ≠ 0 then some (parts.getD 1 "") else none
          footer := if (parts.getD 2 "").length ≠ 0 then some (parts.getD 2 "") else none }

/-- The document actually upserted for a seed entry: for the renderable
collections, the parsed payload after source injection, with `created` and
`updated` set to the current time; other collections upsert the payload
verbatim. -/
def buildDocument (now : Nat) (source : Option String) (collection : String) (payload : Doc) :
    Doc :=
  if collection = "cmsPages" ∨ collection = "cmsTemplates" then
    let d := applySource collection payload source
    { d with created := some now, updated := some now }
  else payload

/-- Processing of one directory entry inside `migrate`'s loop.  The
accumulator carries the store and the number of upserts performed so far.
Non-`.json` entries are skipped; for a `.json` entry the collection and id
are parsed from the name, the existing document is looked up (which rejects
when the derived collection name is empty), and the document is upserted
when absent or when `force` is set. -/
def migrateEntry (now : Nat) (source : String → Option String) (force : Bool)
    (acc : Store × Nat) (f : SeedFile) : Except String (Store × Nat) :=
  if f.isJson then
    match findOne acc.1 (seedCollection f.name) (seedId f.name) with
    | .error e => .error e
    | .ok existing =>
      if existing.isNone || force then
        .ok (replaceOneUpsert acc.1 (seedCollection f.name) (seedId f.name)
               (buildDocument now (source f.name) (seedCollection f.name) f.payload),
             acc.2 + 1)
      else .ok acc
  else .ok acc

/-- The `for await (const entry of dir)` loop of `migrate`: process the
seed entries in order, threading the store and the upsert count, and
short-circuit on the first error. -/
def migrateLoop (now : Nat) (src : String → Option String) (force : Bool) :
    Store × Nat → List SeedFile → Except String (Store × Nat)
  | acc, [] => .ok acc
  | acc, f :: fs =>
    match migrateEntry now src force acc f with
    | .error e => .error e
    | .ok acc' => migrateLoop now src force acc' fs

/-- `CMS.migrate` (app.js lines 285-346): loop the seed entries over the
store; resolves with the final store and the number of upserts performed,
or rejects with the first error encountered. -/
def migrate (now : Nat) (dir : SeedDir) (force : Bool) (store : Store) :
    Except String (Store × Nat) :=
  migrateLoop now dir.source force (store, 0) dir.files

/-! ## Request resolution with migration fallback (app.js lines 168-196) -/

/-- What the handler's `cmsPage` variable holds after resolution: either a
page found by `findPage` in the token loop, or the raw `cmsPages.home`
document fetched by plain `findOne` after the migration fallback. -/
inductive ResolvedRequest where
  | found (p : ResolvedPage)
  | fallbackHome (d : Doc)
deriving Repr, DecidableEq

/-- The resolution part of the request handler: try the token loop; when no
token matches, run `migrate` unforced and re-fetch `cmsPages.home` by plain
`findOne`; when `home` is still absent, fail with the fatal
`Unable to find Home page` error (caught only by the 500 handler). -/
def requestResolve (now : Nat) (dir : SeedDir) (store : Store) (url : String) :
    Except String (ResolvedRequest × Store) :=
  match resolvePage store url with
  | some p => .ok (.found p, store)
  | none =>
    match migrate now dir false store with
    | .error e => .error e
    | .ok (store', _) =>
      match findOne store' "cmsPages" "home" with
      | .error e => .error e
      | .ok none => .error "Unable to find Home page"
      | .ok (some d) => .ok (.fallbackHome d, store')

/-! ## Template renderer (app.js lines 201-251)

The three stages evaluate stored JavaScript fragments with `eval`; the
scripts read and assign the handler's `output` variable.  Script execution
is abstracted as a state transformer on the optional output document: given
the current value of `output`, an evaluation yields the value of `output`
afterwards together with the thrown error, if any (mutations before a throw
persist, as they do on the shared JS object). -/

/-- `html-escaper`'s escape map on one character. -/
def escapeChar (c : Char) : String :=
  if c = '&' then "&amp;"
  else if c = '<' then "&lt;"
  else if c = '>' then "&gt;"
  else if c = '\'' then "&#39;"
  else if c = '"' then "&quot;"
  else String.singleton c

/-- `htmlEscaper.escape`. -/
def escape (s : String) : String :=
  String.join (s.toList.map escapeChar)

/-- The asset settings the renderer reads from the CMS settings record. -/
structure Settings where
  bootstrapCSS : String
  bootstrapJS : String
  jqueryJS : String
  popperJS : String
  fontawesomeCSS : String
deriving Repr, DecidableEq

/-- The arguments of `output.bootstrap(...)`: CSS/JS asset locations and
the flag passed as the third argument. -/
structure BootstrapConfig where
  css : String
  js : String
  flag : Bool
  jquery : String
  popper : String
  fontawesome : String
deriving Repr, DecidableEq

/-- Content the handler itself appends to the output document: inline
error panels (`output.alert([Heading1(heading), err], { theme })`) and the
debug source panel. -/
inductive OutItem where
  | alert (heading detail theme : String)
  | debugPanel (pageJSON headerSrc bodySrc footerSrc : String)
deriving Repr, DecidableEq

/-- The output document (`bs.HTML`): its title, Bootstrap theming
configuration when enabled, and the appended items. -/
structure HTML where
  title : String
  bootstrapConfig : Option BootstrapConfig := none
  items : List OutItem := []
deriving Repr, DecidableEq

/-- `output.alert([Heading1(heading), err], { theme })`: append an inline
panel. -/
def HTML.alert (o : HTML) (heading detail theme : String) : HTML :=
  { o with items := o.items ++ [.alert heading detail theme] }

/-- `output.bootstrap(css, js, true, jquery, popper, fontawesome)`. -/
def HTML.bootstrap (o : HTML) (s : Settings) : HTML :=
  { o with
    bootstrapConfig :=
      some { css := s.bootstrapCSS, js := s.bootstrapJS, flag := true,
             jquery := s.jqueryJS, popper := s.popperJS, fontawesome := s.fontawesomeCSS } }

/-- Outcome of one `eval` of a stored fragment: the value of the `output`
variable afterwards, and the thrown error when evaluation failed. -/
def EvalFn : Type := Option HTML → Option HTML × Option String

/-- The inputs of one render: package description, settings, debug flag,
the resolved page's identifier and title, and the raw strings shown by the
debug panel. -/
structure RenderCtx where
  pkgDescription : String
  settings : Settings
  debug : Bool
  pageId : String
  pageTitle : String
  pageJSON : String
  headerSrc : String
  bodySrc : String
  footerSrc : String

/-- The fallback output document built when the header stage fails:
`new bs.HTML(escape(id == 'home' ? packageInfo.description : title))`
followed by `output.bootstrap(...)` with the configured asset settings. -/
def fallbackOutput (ctx : RenderCtx) : HTML :=
  HTML.bootstrap
    { title := escape (if ctx.pageId = "home" then ctx.pkgDescription else ctx.pageTitle) }
    ctx.settings

/-- Header stage: `eval(cmsPage.template.header)` starting from the
undefined `output`; on failure the exception is caught, a fresh fallback
document replaces whatever the script left, and the
`CMS Template header error` panel is appended with the failure detail. -/
def headerStage (ctx : RenderCtx) (hev : EvalFn) : Option HTML :=
  match hev none with
  | (out, none) => out
  | (_, some e) =>
    some (HTML.alert (fallbackOutput ctx) "CMS Template header error" e "danger")

/-- Body stage: `eval(cmsPage.body)`; on failure the catch runs
`output.alert(...)`, which appends the `CMS Page body error` panel to the
current output — or itself throws (uncaught by this stage) when `output`
is undefined. -/
def bodyStage (out : Option HTML) (bev : EvalFn) : Except String (Option HTML) :=
  match bev out with
  | (out', none) => .ok out'
  | (out', some e) =>
    match out' with
    | some o => .ok (some (HTML.alert o "CMS Page body error" e "danger"))
    | none => .error "TypeError: output is undefined"

/-- Debug stage: when debugging and `output instanceof bs.HTML`, append the
diagnostic panel with the page JSON and the raw sources, HTML-escaped. -/
def debugStage (ctx : RenderCtx) (out : Option HTML) : Option HTML :=
  match out with
  | some o =>
    if ctx.debug then
      some { o with
             items := o.items ++
               [.debugPanel (escape ctx.pageJSON) (escape ctx.headerSrc)
                 (escape ctx.bodySrc) (escape ctx.footerSrc)] }
    else some o
  | none => none

/-- Footer stage: `eval(cmsPage.template.footer)`, contained the same way
as the body stage, with the `CMS Template footer error` panel. -/
def footerStage (out : Option HTML) (fev : EvalFn) : Except String (Option HTML) :=
  match fev out with
  | (out', none) => .ok out'
  | (out', some e) =>
    match out' with
    | some o => .ok (some (HTML.alert o "CMS Template footer error" e "danger"))
    | none => .error "TypeError: output is undefined"

/-- `res.send(output.toString())`: produces the response from the output
document, or throws (to the 500 handler) when `output` is undefined. -/
def sendStage (out : Option HTML) : Except String HTML :=
  match out with
  | some o => .ok o
  | none => .error "TypeError: output is undefined"

/-- The handler's rendering pipeline: header, body, debug, footer, send. -/
def render (ctx : RenderCtx) (hev bev fev : EvalFn) : Except String HTML :=
  match bodyStage (headerStage ctx hev) bev with
  | .error e => .error e
  | .ok out =>
    match footerStage (debugStage ctx out) fev with
    | .error e => .error e
    | .ok out => sendStage out

/-- An evaluation never replaces a defined `output` by `undefined` — true
of every fragment that only constructs/mutates the output document. -/
def PreservesOutput (ev : EvalFn) : Prop :=
  ∀ o : Option HTML, o.isSome → ((ev o).1).isSome

/-! ## Database connection plumbing (`constructor`, `updateOne`, `updateMany`) -/

/-- The connection fields of a CMS instance: the constructor assigns
`_connectionString`; no code anywhere assigns `_connection`, so on every
instance the constructor can produce it is `none` (JS `undefined`). -/
structure CMSConn where
  _connectionString : Option String
  _connection : Option String
deriving Repr, DecidableEq

/-- The CMS constructor (app.js lines 23-44): requires server and database,
requires a password when a username is given, defaults the port to 27017
(`0` models a missing/falsy port), and builds the connection string.
`encodeURIComponent` is modelled as the identity, faithful on the
reserved-character-free credentials this embedding quantifies over. -/
def cmsConstructor (server database username password : String) (port : Nat) :
    Except String CMSConn :=
  if server = "" ∨ database = "" then
    .error "MongoDB server and database are required"
  else if username ≠ "" ∧ password = "" then
    .error "MongoDB password is required when a username is provided"
  else
    let port' := if port = 0 then 27017 else port
    .ok { _connectionString :=
            some ("mongodb://"
              ++ (if username ≠ "" then username ++ ":" ++ password ++ "@" else "")
              ++ server ++ ":" ++ toString port')
          _connection := none }

/-- `MongoClient.connect(url, ...)`: connecting with an undefined URL
throws; a defined URL is modelled as connecting successfully (the
contrasting behaviour the claims need). -/
def mongoClientConnect (url : Option String) : Except String Unit :=
  match url with
  | some _ => .ok ()
  | none => .error "MongoError: the URL must be a string"

/-- Shape of a JavaScript argument as far as the validation code can tell:
falsy (`undefined`/missing), a truthy object, or a truthy non-object. -/
inductive JsVal where
  | undef
  | obj
  | nonObj
deriving Repr, DecidableEq

/-- `CMS.updateOne` (app.js lines 632-658): validate the arguments, then
connect using `this._connection` — the one database method that does not
use `this._connectionString`. -/
def updateOne (c : CMSConn) (collection : String) (filter update options : JsVal) :
    Except String Unit :=
  if collection = "" then .error "MongoDB collection is required"
  else if filter = .nonObj then .error "MongoDB filter must be JSON"
  else if update ≠ .obj then .error "MongoDB update is required and must be JSON"
  else if options = .nonObj then .error "MongoDB options must be JSON"
  else
    match mongoClientConnect c._connection with
    | .error e => .error e
    | .ok _ => .ok ()

/-- `CMS.updateMany` (app.js lines 596-622): identical validation, but the
connection uses `this._connectionString`. -/
def updateMany (c : CMSConn) (collection : String) (filter update options : JsVal) :
    Except String Unit :=
  if collection = "" then .error "MongoDB collection is required"
  else if filter = .nonObj then .error "MongoDB filter must be JSON"
  else if update ≠ .obj then .error "MongoDB update is required and must be JSON"
  else if options = .nonObj then .error "MongoDB options must be JSON"
  else
    match mongoClientConnect c._connectionString with
    | .error e => .error e
    | .ok _ => .ok ()

/-! ## Concrete seed data for witnesses -/

/-- A seed directory holding only `cmsPages-home.json`, with no sibling
source files. -/
def seedDirHome : SeedDir :=
  { files := [{ name := "cmsPages-home", isJson := true, payload := { _id := "home", title := "Home" } }]
    source := fun _ => none }

/-- The store produced by seeding `seedDirHome` into an empty store at
time 0. -/
def storeAfterHome : Store :=
  [("cmsPages", { _id := "home", title := "Home", created := some 0, updated := some 0 })]

/-- A seed directory whose only entry is a template whose source file does
not contain the divider literal. -/
def dividerlessDir : SeedDir :=
  { files := [{ name := "cmsTemplates-main", isJson := true, payload := { _id := "main" } }]
    source := fun n => if n = "cmsTemplates-main" then some "no divider in this source" else none }

/-- A seed directory whose only metadata file has no `-` in its base name. -/
def dashlessDir : SeedDir :=
  { files := [{ name := "cmssettings", isJson := true, payload := { _id := "settings" } }]
    source := fun _ => none }

/-- The connection fields of the instance built by
`new CMS('localhost', 'cmsDB')`. -/
def localConn : CMSConn :=
  { _connectionString := some "mongodb://localhost:27017", _connection := none }

/-- Concrete asset settings. -/
def sampleSettings : Settings :=
  { bootstrapCSS := "bootstrap.css", bootstrapJS := "bootstrap.js",
    jqueryJS := "jquery.js", popperJS := "popper.js", fontawesomeCSS := "fontawesome.css" }

/-- Concrete render inputs for the `home` page. -/
def sampleCtx : RenderCtx :=
  { pkgDescription := "LegendaryMediaTV CMS", settings := sampleSettings, debug := false,
    pageId := "home", pageTitle := "Home", pageJSON := "page json",
    headerSrc := "header source", bodySrc := "body source", footerSrc := "footer source" }

/-- A concrete in-progress output document. -/
def sampleDoc : HTML := { title := "Sample" }

/-- A header fragment whose evaluation throws without producing output. -/
def headerBoom : EvalFn := fun _ => (none, some "boom")

/-- A fragment whose evaluation leaves `output` untouched and succeeds. -/
def keepOutput : EvalFn := fun o => (o, none)

/-- A header fragment that initializes `output` and succeeds. -/
def initOutput : EvalFn := fun _ => (some sampleDoc, none)

/-- A fragment whose evaluation leaves `output` untouched and throws. -/
def failEval : EvalFn := fun o => (o, some "stage boom")

/-! ## Resolution-order theorems -/

/-- The handler's break-on-hit loop is the first-some scan of its token
list: lookups happen in list order and the first page found is returned. -/
theorem resolveLoop_eq_findSome (store : Store) (ts : List String) :
    resolveLoop store ts =
      List.findSome? (fun t => findPage store (normalizeToken t)) ts := by
  induction ts with
  | nil => rfl
  | cons t rest ih =>
    unfold resolveLoop List.findSome?
    cases findPage store (normalizeToken t) with
    | none => simpa using ih
    | some p => simp

/-- Claim C1: for a request path whose lowercased `/`-split segments are
`[s1, ..., sn]`, resolution performs the (normalized) lookups in the order
`sn, ..., s1` — the reverse of the segment list — and returns the first
page found, stopping at the first hit: it equals the first-some scan of the
reversed segment list. -/
theorem claim_C1_resolution_order (store : Store) (url : String) :
    resolvePage store url =
      List.findSome? (fun t => findPage store (normalizeToken t)) (urlTokens url).reverse :=
  resolveLoop_eq_findSome store (urlTokens url).reverse

/-- Claim C7: an empty URL token is normalized to the literal identifier
`home` before its lookup, so a leading empty token behaves exactly like the
token `home`, and the root path `/` resolves via the lookup for `home`. -/
theorem claim_C7_empty_token_is_home (store : Store) :
    normalizeToken "" = "home"
    ∧ (∀ rest : List String,
        resolveLoop store ("" :: rest) = resolveLoop store ("home" :: rest))
    ∧ resolvePage store "/" = findPage store "home" := by
  refine ⟨rfl, fun rest => rfl, ?_⟩
  show resolveLoop store (urlTokens "/").reverse = findPage store "home"
  have h : (urlTokens "/").reverse = ["", ""] := by decide
  rw [h]
  cases hp : findPage store "home" with
  | none => simp [resolveLoop, normalizeToken, hp]
  | some p => simp [resolveLoop, normalizeToken, hp]

/-- Claim C8: a page found by `findPage` is returned augmented with the
canonical URL — `/` followed by the identifier, except the bare `/` for
`home` — and with its `template` field replaced by the result of the second
store lookup of that template identifier in `cmsTemplates`. -/
theorem claim_C8_findPage_augments (store : Store) (search : String) (d : Doc)
    (h : mongoFindOne store "cmsPages" search = some d) :
    findPage store search =
      some { page := d
             url := if d._id = "home" then "/" else "/" ++ d._id
             template := d.template.bind (fun tid => mongoFindOne store "cmsTemplates" tid) } := by
  unfold findPage
  rw [h]
  by_cases hid : d._id = "home"
  · simp [hid]
  · simp [hid]

/-- A concrete run of `claim_C8_findPage_augments`: a stored `home` page
referencing template `default` is augmented with the bare URL `/` and the
looked-up template document. -/
theorem claim_C8_witness :
    findPage
      [("cmsPages", { _id := "home", title := "Home", template := some "default" }),
       ("cmsTemplates", { _id := "default" })] "home" =
      some { page := { _id := "home", title := "Home", template := some "default" }
             url := if ("home" : String) = "home" then "/" else "/" ++ "home"
             template := (some "default").bind
               (fun tid =>
                 mongoFindOne
                   [("cmsPages", { _id := "home", title := "Home", template := some "default" }),
                    ("cmsTemplates", { _id := "default" })] "cmsTemplates" tid) } :=
  claim_C8_findPage_augments _ "home" _ (by decide)

/-! ## Migration fallback of the request handler -/

/-- Claim C5: when no token of the request path matches a stored page, the
handler runs `migrate` unforced and retries the lookup of the identifier
`home` specifically; a migration error propagates, and when `home` is still
absent after migration the request fails with the fatal
`Unable to find Home page` error instead of producing a response. -/
theorem claim_C5_home_fallback (now : Nat) (dir : SeedDir) (store : Store) (url : String)
    (hmiss : resolvePage store url = none) :
    (∀ e, migrate now dir false store = .error e →
      requestResolve now dir store url = .error e)
    ∧ (∀ s' k, migrate now dir false store = .ok (s', k) →
        (mongoFindOne s' "cmsPages" "home" = none →
          requestResolve now dir store url = .error "Unable to find Home page")
        ∧ (∀ d, mongoFindOne s' "cmsPages" "home" = some d →
            requestResolve now dir store url = .ok (.fallbackHome d, s'))) := by
  unfold requestResolve
  rw [hmiss]
  refine ⟨fun e he => by rw [he], fun s' k hk => ?_⟩
  rw [hk]
  exact ⟨fun hnone => by simp [findOne, hnone],
         fun d hd => by simp [findOne, hd]⟩

/-- A concrete run of `claim_C5_home_fallback`: with an empty store and the
`cmsPages-home` seed directory, the request `/about` migrates and falls
back to the freshly seeded raw `home` document. -/
theorem claim_C5_witness :
    requestResolve 0 seedDirHome [] "/about" =
      .ok (.fallbackHome { _id := "home", title := "Home", created := some 0, updated := some 0 },
           storeAfterHome) :=
  ((claim_C5_home_fallback 0 seedDirHome [] "/about" (by decide)).2
      storeAfterHome 1 rfl).2
    { _id := "home", title := "Home", created := some 0, updated := some 0 } (by decide)

/-! ## Migration error propagation for malformed seed file names -/

/-- `findOne` has a single error: the missing-collection rejection. -/
theorem findOne_error_msg (store : Store) (collection id : String) (e : String)
    (h : findOne store collection id = .error e) : e = "MongoDB collection is required" := by
  unfold findOne at h
  split at h
  · injection h with h; exact h.symm
  · exact absurd h (by simp)

/-- `migrateEntry` can only fail with the missing-collection rejection. -/
theorem migrateEntry_error_msg (now : Nat) (src : String → Option String) (force : Bool)
    (acc : Store × Nat) (f : SeedFile) (e : String)
    (h : migrateEntry now src force acc f = .error e) :
    e = "MongoDB collection is required" := by
  unfold migrateEntry at h
  split at h
  · split at h
    · rename_i e' hfo
      injection h with h
      exact h ▸ findOne_error_msg acc.1 _ _ e' hfo
    · split at h
      · exact absurd h (by simp)
      · exact absurd h (by simp)
  · exact absurd h (by simp)

/-- A character absent from a list is found at no index. -/
theorem findIdx_eq_none_of_not_mem (l : List Char) (h : '-' ∉ l) :
    List.findIdx? (fun c => c = '-') l = none := by
  simp only [List.findIdx?_eq_none_iff]
  intro x hx
  simp only [decide_eq_false_iff_not]
  intro hx'
  exact h (hx' ▸ hx)

/-- Once the fold reaches a `.json` entry whose derived collection is
empty, the whole fold fails with the missing-collection rejection; any
earlier failure carries the same message. -/
theorem migrateFold_error (now : Nat) (src : String → Option String) (force : Bool)
    (fs : List SeedFile) (f : SeedFile) (hmem : f ∈ fs) (hjson : f.isJson = true)
    (hcol : seedCollection f.name = "") :
    ∀ acc : Store × Nat,
      migrateLoop now src force acc fs = .error "MongoDB collection is required" := by
  induction fs with
  | nil => cases hmem
  | cons g rest ih =>
    intro acc
    unfold migrateLoop
    cases hg : migrateEntry now src force acc g with
    | error e =>
      have he := migrateEntry_error_msg now src force acc g e hg
      subst he
      rfl
    | ok acc' =>
      rcases List.mem_cons.mp hmem with hfg | hfr
      · subst hfg
        unfold migrateEntry at hg
        simp [hjson, hcol, findOne] at hg
      · exact ih hfr acc'

/-- Claim C10: a `.json` seed file whose base name has no `-` separator
yields the empty string as collection (and the whole name as id); the
`findOne` for that entry rejects with `MongoDB collection is required`, and
the entire `migrate` call fails with that error rather than skipping the
file. -/
theorem claim_C10_dashless_seed_name (now : Nat) (dir : SeedDir) (force : Bool) (store : Store)
    (f : SeedFile) (hmem : f ∈ dir.files) (hjson : f.isJson = true)
    (hdash : '-' ∉ f.name.toList) :
    seedCollection f.name = ""
    ∧ seedId f.name = f.name
    ∧ findOne store (seedCollection f.name) (seedId f.name) =
        .error "MongoDB collection is required"
    ∧ migrate now dir force store = .error "MongoDB collection is required" := by
  have hidx := findIdx_eq_none_of_not_mem f.name.toList hdash
  have hcol : seedCollection f.name = "" := by unfold seedCollection; rw [hidx]
  refine ⟨hcol, ?_, ?_, ?_⟩
  · unfold seedId
    rw [hidx]
  · rw [hcol]
    rfl
  · exact migrateFold_error now dir.source force dir.files f hmem hjson hcol (store, 0)

/-- A concrete run of `claim_C10_dashless_seed_name`: the seed file
`cmssettings.json` makes the whole migration reject. -/
theorem claim_C10_witness :
    migrate 3 dashlessDir false [] = .error "MongoDB collection is required" :=
  (claim_C10_dashless_seed_name 3 dashlessDir false []
      { name := "cmssettings", isJson := true, payload := { _id := "settings" } }
      (by decide) rfl (by decide)).2.2.2

/-! ## The swallowed template-divider error -/

/-- Claim C2 (refuted — code bug): the divider-count check of `migrate`
throws its descriptive error inside the same `try { ... } catch (err) { }`
that swallows source-read failures, so a template source with a single part
(no divider) does NOT fail the migration: the record is upserted anyway,
with `header`/`body`/`footer` left unset.  This run evaluates `migrate` on
a template whose source splits into one part: the call resolves
successfully and performs the upsert the claim says must not happen. -/
theorem claim_C2_divider_error_swallowed :
    (jsSplit cmsTemplateDivider "no divider in this source").length = 1
    ∧ migrate 7 dividerlessDir false [] =
        .ok ([("cmsTemplates", { _id := "main", created := some 7, updated := some 7 })], 1) :=
  ⟨by decide, by rfl⟩

/-! ## The unassigned `_connection` field -/

/-- Claim C9: every CMS instance the constructor can produce has
`_connection` unassigned (it is assigned nowhere in the class), so
`updateOne` — the one database method connecting with `this._connection`
instead of `this._connectionString` — rejects for every argument list,
however valid; the same arguments satisfy the sibling `updateMany`, which
uses `_connectionString`. -/
theorem claim_C9_updateOne_always_rejects
    (server database username password : String) (port : Nat) (c : CMSConn)
    (hc : cmsConstructor server database username password port = .ok c) :
    c._connection = none
    ∧ (∀ (collection : String) (filter update options : JsVal),
        ∃ e, updateOne c collection filter update options = .error e)
    ∧ (∀ (collection : String) (filter update options : JsVal),
        collection ≠ "" → filter ≠ .nonObj → update = .obj → options ≠ .nonObj →
        updateMany c collection filter update options = .ok ()) := by
  unfold cmsConstructor at hc
  split at hc
  · exact absurd hc (by simp)
  · split at hc
    · exact absurd hc (by simp)
    · injection hc with hc
      refine ⟨by rw [← hc], ?_, ?_⟩
      · intro collection filter update options
        unfold updateOne
        split
        · exact ⟨_, rfl⟩
        · split
          · exact ⟨_, rfl⟩
          · split
            · exact ⟨_, rfl⟩
            · split
              · exact ⟨_, rfl⟩
              · rw [← hc]
                exact ⟨_, rfl⟩
      · intro collection filter update options h1 h2 h3 h4
        unfold updateMany
        rw [if_neg h1, if_neg h2, if_neg (by simp [h3]), if_neg h4, ← hc]
        rfl

/-- A concrete run of `claim_C9_updateOne_always_rejects`: on the instance
of `new CMS('localhost', 'cmsDB')`, a fully valid `updateOne` call rejects
while the identical `updateMany` call succeeds. -/
theorem claim_C9_witness :
    (∃ e, updateOne localConn "cmsPages" .obj .obj .undef = .error e)
    ∧ updateMany localConn "cmsPages" .obj .obj .undef = .ok () := by
  have h := claim_C9_updateOne_always_rejects "localhost" "cmsDB" "" "" 0 localConn rfl
  exact ⟨h.2.1 "cmsPages" .obj .obj .undef,
         h.2.2 "cmsPages" .obj .obj .undef (by decide) (by decide) rfl (by decide)⟩

/-! ## Renderer stage containment -/

/-- When a body evaluation keeps `output` defined, the body stage cannot
throw: it returns a defined document. -/
theorem bodyStage_ok_of_some (out : Option HTML) (bev : EvalFn)
    (hb : PreservesOutput bev) (h : out.isSome) :
    ∃ o', bodyStage out bev = .ok (some o') := by
  have hsome := hb out h
  unfold bodyStage
  cases hbev : bev out with
  | mk out' err =>
    rw [hbev] at hsome
    have hsome' : out'.isSome = true := hsome
    obtain ⟨o', ho'⟩ := Option.isSome_iff_exists.mp hsome'
    subst ho'
    cases err with
    | none => exact ⟨o', rfl⟩
    | some e => exact ⟨_, rfl⟩

/-- When a footer evaluation keeps `output` defined, the footer stage
cannot throw: it returns a defined document. -/
theorem footerStage_ok_of_some (out : Option HTML) (fev : EvalFn)
    (hf : PreservesOutput fev) (h : out.isSome) :
    ∃ o', footerStage out fev = .ok (some o') := by
  have hsome := hf out h
  unfold footerStage
  cases hfev : fev out with
  | mk out' err =>
    rw [hfev] at hsome
    have hsome' : out'.isSome = true := hsome
    obtain ⟨o', ho'⟩ := Option.isSome_iff_exists.mp hsome'
    subst ho'
    cases err with
    | none => exact ⟨o', rfl⟩
    | some e => exact ⟨_, rfl⟩

/-- The debug stage keeps a defined output document defined. -/
theorem debugStage_some (ctx : RenderCtx) (o : HTML) :
    (debugStage ctx (some o)).isSome := by
  unfold debugStage
  by_cases hd : ctx.debug <;> simp [hd]

/-- Once the header stage leaves a defined output document, the pipeline
produces a response for all body/footer fragments that keep `output`
defined. -/
theorem render_ok_of_headerStage_some (ctx : RenderCtx) (hev bev fev : EvalFn)
    (hb : PreservesOutput bev) (hf : PreservesOutput fev)
    (hhead : (headerStage ctx hev).isSome) :
    ∃ doc, render ctx hev bev fev = .ok doc := by
  unfold render
  obtain ⟨o1, h1⟩ := bodyStage_ok_of_some (headerStage ctx hev) bev hb hhead
  simp only [h1]
  obtain ⟨o2, h2⟩ := footerStage_ok_of_some (debugStage ctx (some o1)) fev hf
    (debugStage_some ctx o1)
  simp only [h2]
  exact ⟨o2, rfl⟩

/-- Claim C3: a failing template-header evaluation never propagates: the
stage catches it, builds a fresh fallback output document — title the
escaped package description when the page identifier is `home`, else the
escaped page title, with Bootstrap theming from the configured asset
settings — appends the inline error panel headed `CMS Template header
error` with the failure detail, and the pipeline still produces a response
(for body/footer fragments that keep `output` defined). -/
theorem claim_C3_header_failure_contained (ctx : RenderCtx) (hev bev fev : EvalFn)
    (o₀ : Option HTML) (e : String) (hfail : hev none = (o₀, some e))
    (hb : PreservesOutput bev) (hf : PreservesOutput fev) :
    headerStage ctx hev =
      some (HTML.alert (fallbackOutput ctx) "CMS Template header error" e "danger")
    ∧ (fallbackOutput ctx).title =
        escape (if ctx.pageId = "home" then ctx.pkgDescription else ctx.pageTitle)
    ∧ (fallbackOutput ctx).bootstrapConfig =
        some { css := ctx.settings.bootstrapCSS, js := ctx.settings.bootstrapJS, flag := true,
               jquery := ctx.settings.jqueryJS, popper := ctx.settings.popperJS,
               fontawesome := ctx.settings.fontawesomeCSS }
    ∧ ∃ doc, render ctx hev bev fev = .ok doc := by
  have hstage : headerStage ctx hev =
      some (HTML.alert (fallbackOutput ctx) "CMS Template header error" e "danger") := by
    unfold headerStage
    rw [hfail]
  refine ⟨hstage, rfl, rfl, ?_⟩
  exact render_ok_of_headerStage_some ctx hev bev fev hb hf (by rw [hstage]; rfl)

/-- A concrete run of `claim_C3_header_failure_contained`: a header
fragment that throws `boom` yields the fallback document with the inline
panel, and the request still renders. -/
theorem claim_C3_witness :
    headerStage sampleCtx headerBoom =
      some (HTML.alert (fallbackOutput sampleCtx) "CMS Template header error" "boom" "danger")
    ∧ ∃ doc, render sampleCtx headerBoom keepOutput keepOutput = .ok doc := by
  have h := claim_C3_header_failure_contained sampleCtx headerBoom keepOutput keepOutput
    none "boom" rfl (fun o ho => ho) (fun o ho => ho)
  exact ⟨h.1, h.2.2.2⟩

/-- Claim C6: a body-stage or footer-stage failure is contained within its
own stage: the matching inline panel (`CMS Page body error` or
`CMS Template footer error`) is appended to the in-progress output
document — whose earlier content is retained, not replaced — the stage
returns normally, and the pipeline still produces a response. -/
theorem claim_C6_body_footer_failures_contained (o o' : HTML) (bev fev : EvalFn)
    (e e' : String) :
    (bev (some o) = (some o', some e) →
      bodyStage (some o) bev =
        .ok (some { o' with items := o'.items ++ [.alert "CMS Page body error" e "danger"] }))
    ∧ (fev (some o) = (some o', some e') →
      footerStage (some o) fev =
        .ok (some { o' with
              items := o'.items ++ [.alert "CMS Template footer error" e' "danger"] }))
    ∧ (∀ (ctx : RenderCtx) (hev : EvalFn), (headerStage ctx hev).isSome →
        PreservesOutput bev → PreservesOutput fev →
        ∃ doc, render ctx hev bev fev = .ok doc) := by
  refine ⟨?_, ?_, ?_⟩
  · intro hb
    unfold bodyStage
    rw [hb]
    rfl
  · intro hf
    unfold footerStage
    rw [hf]
    rfl
  · intro ctx hev hhead hb hf
    exact render_ok_of_headerStage_some ctx hev bev fev hb hf hhead

/-- A concrete run of `claim_C6_body_footer_failures_contained`: body and
footer fragments that throw `stage boom` each append their panel to the
retained document, and a pipeline with a working header and those failing
fragments still renders. -/
theorem claim_C6_witness :
    bodyStage (some sampleDoc) failEval =
      .ok (some { sampleDoc with
            items := sampleDoc.items ++ [.alert "CMS Page body error" "stage boom" "danger"] })
    ∧ footerStage (some sampleDoc) failEval =
      .ok (some { sampleDoc with
            items := sampleDoc.items ++
              [.alert "CMS Template footer error" "stage boom" "danger"] })
    ∧ ∃ doc, render sampleCtx initOutput failEval failEval = .ok doc := by
  have h := claim_C6_body_footer_failures_contained sampleDoc sampleDoc failEval failEval
    "stage boom" "stage boom"
  exact ⟨h.1 rfl, h.2.1 rfl, h.2.2 sampleCtx initOutput rfl (fun o ho => ho) (fun o ho => ho)⟩

/-! ## Overwrite semantics of migration (`force`) -/

/-- Unfolding `mongoFindOne` on a store with a head entry. -/
theorem mongoFindOne_cons (e : String × Doc) (rest : Store) (c i : String) :
    mongoFindOne (e :: rest) c i =
      if e.1 = c ∧ e.2._id = i then some e.2 else mongoFindOne rest c i := by
  unfold mongoFindOne
  by_cases hm : e.1 = c ∧ e.2._id = i
  · rw [if_pos hm]
    simp [List.find?, hm.1, hm.2]
  · rw [if_neg hm]
    rcases not_and_or.mp hm with h | h
    · simp [List.find?, h]
    · simp [List.find?, h]

/-- An upsert makes its own key present, bound to the stored document. -/
theorem mongoFindOne_replaceOne_self (c i : String) (doc : Doc) :
    ∀ store : Store,
      mongoFindOne (replaceOneUpsert store c i doc) c i = some { doc with _id := i } := by
  intro store
  induction store with
  | nil =>
    rw [show replaceOneUpsert [] c i doc = [(c, { doc with _id := i })] from rfl,
        mongoFindOne_cons]
    exact if_pos ⟨rfl, rfl⟩
  | cons e rest ih =>
    rw [show replaceOneUpsert (e :: rest) c i doc =
          (if e.1 = c ∧ e.2._id = i then (c, { doc with _id := i }) :: rest
           else e :: replaceOneUpsert rest c i doc) from rfl]
    by_cases hm : e.1 = c ∧ e.2._id = i
    · rw [if_pos hm, mongoFindOne_cons]
      exact if_pos ⟨rfl, rfl⟩
    · rw [if_neg hm, mongoFindOne_cons, if_neg hm]
      exact ih

/-- An upsert never removes a present key. -/
theorem mongoFindOne_replaceOne_isSome (c i c' i' : String) (doc : Doc) :
    ∀ store : Store, (mongoFindOne store c i).isSome →
      (mongoFindOne (replaceOneUpsert store c' i' doc) c i).isSome := by
  intro store
  induction store with
  | nil => intro h; simp [mongoFindOne, List.find?] at h
  | cons e rest ih =>
    intro h
    rw [mongoFindOne_cons] at h
    rw [show replaceOneUpsert (e :: rest) c' i' doc =
          (if e.1 = c' ∧ e.2._id = i' then (c', { doc with _id := i' }) :: rest
           else e :: replaceOneUpsert rest c' i' doc) from rfl]
    by_cases hm : e.1 = c' ∧ e.2._id = i'
    · rw [if_pos hm, mongoFindOne_cons]
      split
      · rfl
      · rename_i hq
        by_cases hp : e.1 = c ∧ e.2._id = i
        · exact absurd ⟨hm.1.symm.trans hp.1, hm.2.symm.trans hp.2⟩ hq
        · rw [if_neg hp] at h
          exact h
    · rw [if_neg hm, mongoFindOne_cons]
      by_cases hp : e.1 = c ∧ e.2._id = i
      · rw [if_pos hp]
        rfl
      · rw [if_neg hp]
        rw [if_neg hp] at h
        exact ih h

/-- A resolved `findOne` means the collection name was non-empty and the
result is the plain store lookup. -/
theorem findOne_ok_inv (store : Store) (c i : String) (existing : Option Doc)
    (h : findOne store c i = .ok existing) :
    c ≠ "" ∧ mongoFindOne store c i = existing := by
  unfold findOne at h
  split at h
  · exact absurd h (by simp)
  · rename_i hc
    exact ⟨hc, by injection h⟩

/-- One successful migration step never removes a present key. -/
theorem migrateEntry_preserves (now : Nat) (src : String → Option String) (force : Bool)
    (acc acc' : Store × Nat) (g : SeedFile)
    (h : migrateEntry now src force acc g = .ok acc') (c i : String)
    (hp : (mongoFindOne acc.1 c i).isSome) : (mongoFindOne acc'.1 c i).isSome := by
  unfold migrateEntry at h
  split at h
  · split at h
    · exact absurd h (by simp)
    · split at h
      · injection h with h
        rw [← h]
        exact mongoFindOne_replaceOne_isSome c i _ _ _ acc.1 hp
      · injection h with h
        rw [← h]
        exact hp
  · injection h with h
    rw [← h]
    exact hp

/-- A successful migration run never removes a present key. -/
theorem migrateLoop_preserves (now : Nat) (src : String → Option String) (force : Bool) :
    ∀ (fs : List SeedFile) (acc : Store × Nat) (s' : Store) (n' : Nat),
      migrateLoop now src force acc fs = .ok (s', n') →
      ∀ c i, (mongoFindOne acc.1 c i).isSome → (mongoFindOne s' c i).isSome := by
  intro fs
  induction fs with
  | nil =>
    intro acc s' n' h c i hp
    injection h with h
    rw [h] at hp
    exact hp
  | cons g rest ih =>
    intro acc s' n' h c i hp
    unfold migrateLoop at h
    cases hg : migrateEntry now src force acc g with
    | error e => rw [hg] at h; cases h
    | ok acc1 =>
      rw [hg] at h
      exact ih acc1 s' n' h c i (migrateEntry_preserves now src force acc acc1 g hg c i hp)

/-- After a successful unforced run, every `.json` seed entry has a
non-empty derived collection and its key present in the final store. -/
theorem migrateLoop_seeded (now : Nat) (src : String → Option String) :
    ∀ (fs : List SeedFile) (acc : Store × Nat) (s' : Store) (n' : Nat),
      migrateLoop now src false acc fs = .ok (s', n') →
      ∀ f ∈ fs, f.isJson = true →
        seedCollection f.name ≠ "" ∧
        (mongoFindOne s' (seedCollection f.name) (seedId f.name)).isSome := by
  intro fs
  induction fs with
  | nil => intro acc s' n' h f hf; cases hf
  | cons g rest ih =>
    intro acc s' n' h f hf hjson
    unfold migrateLoop at h
    cases hg : migrateEntry now src false acc g with
    | error e => rw [hg] at h; cases h
    | ok acc1 =>
      rw [hg] at h
      rcases List.mem_cons.mp hf with hfg | hfr
      · subst hfg
        unfold migrateEntry at hg
        rw [if_pos hjson] at hg
        cases hfo : findOne acc.1 (seedCollection f.name) (seedId f.name) with
        | error e => rw [hfo] at hg; cases hg
        | ok existing =>
          rw [hfo] at hg
          obtain ⟨hcne, hmfo⟩ := findOne_ok_inv acc.1 _ _ existing hfo
          refine ⟨hcne, ?_⟩
          have hpres : (mongoFindOne acc1.1 (seedCollection f.name) (seedId f.name)).isSome := by
            cases existing with
            | some d =>
              dsimp only at hg
              injection hg with hg
              rw [← hg, hmfo]
              rfl
            | none =>
              dsimp only at hg
              injection hg with hg
              rw [← hg]
              dsimp only
              rw [mongoFindOne_replaceOne_self]
              rfl
          exact migrateLoop_preserves now src false rest acc1 s' n' h _ _ hpres
      · exact ih acc1 s' n' h f hfr hjson

/-- When every `.json` entry of the list already has its key present, an
unforced run changes nothing and performs no write. -/
theorem migrateLoop_skips (now : Nat) (src : String → Option String) :
    ∀ (fs : List SeedFile) (s : Store) (n : Nat),
      (∀ f ∈ fs, f.isJson = true →
        seedCollection f.name ≠ "" ∧
        (mongoFindOne s (seedCollection f.name) (seedId f.name)).isSome) →
      migrateLoop now src false (s, n) fs = .ok (s, n) := by
  intro fs
  induction fs with
  | nil => intro s n hall; rfl
  | cons g rest ih =>
    intro s n hall
    unfold migrateLoop
    cases hj : g.isJson with
    | false =>
      rw [show migrateEntry now src false (s, n) g = .ok (s, n) from by
            unfold migrateEntry; rw [hj]; rfl]
      exact ih s n (fun f hf => hall f (List.mem_cons_of_mem g hf))
    | true =>
      obtain ⟨hcne, hpres⟩ := hall g (List.mem_cons_self g rest) hj
      obtain ⟨d, hd⟩ := Option.isSome_iff_exists.mp hpres
      have hentry : migrateEntry now src false (s, n) g = .ok (s, n) := by
        unfold migrateEntry
        rw [if_pos hj]
        dsimp only
        rw [show findOne s (seedCollection g.name) (seedId g.name) = .ok (some d) from by
              unfold findOne; rw [if_neg hcne, hd]]
        rfl
      rw [hentry]
      exact ih s n (fun f hf => hall f (List.mem_cons_of_mem g hf))

/-- A successful forced run writes once per `.json` seed entry. -/
theorem migrateLoop_count (now : Nat) (src : String → Option String) :
    ∀ (fs : List SeedFile) (acc : Store × Nat) (s' : Store) (m : Nat),
      migrateLoop now src true acc fs = .ok (s', m) →
      m = acc.2 + (fs.filter (fun f => f.isJson)).length := by
  intro fs
  induction fs with
  | nil =>
    intro acc s' m h
    injection h with h
    rw [h]
    simp
  | cons g rest ih =>
    intro acc s' m h
    unfold migrateLoop at h
    cases hg : migrateEntry now src true acc g with
    | error e => rw [hg] at h; cases h
    | ok acc1 =>
      rw [hg] at h
      have hm := ih acc1 s' m h
      unfold migrateEntry at hg
      cases hj : g.isJson with
      | false =>
        rw [hj] at hg
        rw [if_neg (by simp)] at hg
        injection hg with hg
        rw [hm, ← hg]
        simp [List.filter_cons, hj]
      | true =>
        rw [if_pos hj] at hg
        cases hfo : findOne acc.1 (seedCollection g.name) (seedId g.name) with
        | error e => rw [hfo] at hg; cases hg
        | ok existing =>
          rw [hfo] at hg
          dsimp only at hg
          rw [if_pos (by simp)] at hg
          injection hg with hg
          have hfil : List.filter (fun f => f.isJson) (g :: rest) =
              g :: List.filter (fun f => f.isJson) rest := by
            simp [List.filter_cons, hj]
          rw [hm, ← hg, hfil, List.length_cons]
          dsimp only
          omega

/-- Claim C4: `migrate` overwrites an existing seed-defined record exactly
when `force` is set.  Unforced, an entry whose record exists is skipped
with no write; an unforced run after a successful unforced run leaves the
store unchanged and performs zero writes; a successful forced run writes
every seed-defined record (one upsert per `.json` entry). -/
theorem claim_C4_force_gates_overwrite (now now' : Nat) (dir : SeedDir) (store : Store) :
    (∀ (f : SeedFile) (n : Nat) (d : Doc), f.isJson = true →
      findOne store (seedCollection f.name) (seedId f.name) = .ok (some d) →
      migrateEntry now dir.source false (store, n) f = .ok (store, n))
    ∧ (∀ s' n, migrate now dir false store = .ok (s', n) →
        migrate now' dir false s' = .ok (s', 0))
    ∧ (∀ s' m, migrate now dir true store = .ok (s', m) →
        m = (dir.files.filter (fun f => f.isJson)).length) := by
  refine ⟨?_, ?_, ?_⟩
  · intro f n d hjson hfo
    unfold migrateEntry
    rw [if_pos hjson]
    dsimp only
    rw [hfo]
    rfl
  · intro s' n h
    unfold migrate at h ⊢
    exact migrateLoop_skips now' dir.source dir.files s' 0
      (migrateLoop_seeded now dir.source dir.files (store, 0) s' n h)
  · intro s' m h
    unfold migrate at h
    simpa using migrateLoop_count now dir.source dir.files (store, 0) s' m h

/-- A concrete run of `claim_C4_force_gates_overwrite`: re-running the
unforced migration on the already-seeded store is a no-op with zero writes,
and a forced run writes exactly the one seed-defined record. -/
theorem claim_C4_witness :
    migrate 1 seedDirHome false storeAfterHome = .ok (storeAfterHome, 0)
    ∧ (1 : Nat) = (seedDirHome.files.filter (fun f => f.isJson)).length := by
  have h := claim_C4_force_gates_overwrite 0 1 seedDirHome []
  exact ⟨h.2.1 storeAfterHome 1 rfl, h.2.2 storeAfterHome 1 rfl⟩

end LMTVCMS
